import Mathlib

/-!
Verification development for the HMM model-selection module
(`my_model_selectors.py`) of an isolated-word recognizer.

The module contains a base class `ModelSelector` and four strategies:
`SelectorConstant`, `SelectorBIC`, `SelectorDIC`, `SelectorCV`.  The
trainer/scorer (hmmlearn's `GaussianHMM`), the sequence combiner
(`asl_utils.combine_sequences`) and the fold splitter (sklearn's `KFold`)
are external collaborators; they are modelled abstractly (the trainer as an
explicit parameter record, the other two from their documented contracts).

Scores are rationals; Python's `float("Inf")` / `-math.inf` sentinels are
modelled by `Option ℚ` with an explicit comparison function per use site
(`none` meaning `+inf` for the BIC accumulator, `-inf` for the DIC and CV
accumulators).  Exceptions are modelled by `Except` / `Option`: a code path
on which Python raises is a path on which the embedded function returns an
error value, and a `try/except` is a `match` on that value.
-/

namespace Recognizer

/-- A single observation frame: one feature vector of rationals. -/
abbrev Frame := List ℚ

/-- One utterance-sequence: an ordered list of frames. -/
abbrev Utterance := List Frame

/-- A flattened observation array together with the matching per-utterance
lengths, i.e. the `(X, lengths)` pair that the trainer consumes. -/
structure FlatData where
  X : List Frame
  lengths : List Nat
deriving DecidableEq, Repr

/-- An (abstract) `GaussianHMM` object.  `n_components` and `n_features` are
the attributes the selectors read; `tag` lets a concrete trainer distinguish
model objects fitted on different data (and fitted objects from freshly
constructed, unfitted ones). -/
structure Model where
  n_components : Nat
  n_features : Nat
  tag : Nat
deriving DecidableEq, Repr

/-- The external trainer/scorer (hmmlearn), as an abstract parameter.

* `new n rs v` models the constructor call
  `GaussianHMM(n_components=n, covariance_type="diag", n_iter=1000,
  random_state=rs, verbose=v)`; construction itself does not raise.
* `fit m d` models `m.fit(X, lengths)`: `some fm` is the fitted model
  (Python returns/mutates `m` into `fm`), `none` models a raised exception
  during fitting (numerical degeneracy etc.).
* `score m d` models `m.score(X, lengths)`: `some q` is the total
  log-likelihood, `none` a raised exception. -/
structure Trainer where
  new : Nat → Nat → Bool → Model
  fit : Model → FlatData → Option Model
  score : Model → FlatData → Option ℚ

/-- Modelled from the spec: the Sequence Combiner (`combine_sequences` from
`asl_utils`) is an external collaborator whose code is not in the repository
sources.  Per the spec it takes a set of utterance indices and the per-word
sequence table and returns one flattened observation array plus the matching
list of per-utterance lengths, preserving frame order, with
`len(lengths) == len(indices)`. -/
def combine_sequences (indices : List Nat) (sequences : List Utterance) : FlatData :=
  let sel := indices.map (fun i => sequences.getD i [])
  { X := sel.flatten, lengths := sel.map List.length }

/-- The per-word state held by the `ModelSelector` base class constructor:
`self.sequences = all_word_sequences[this_word]`,
`(self.X, self.lengths) = all_word_Xlengths[this_word]` (stored here as the
single field `Xlengths`), `self.hwords = all_word_Xlengths` (as an ordered
association list, matching Python dict iteration order), plus the
configuration fields. -/
structure ModelSelector where
  sequences : List Utterance
  Xlengths : FlatData
  hwords : List (String × FlatData)
  this_word : String
  n_constant : Nat
  min_n_components : Nat
  max_n_components : Nat
  random_state : Nat
  verbose : Bool

/-- `ModelSelector.base_model(num_states)`: construct a model with
`verbose=False` and fit it on the given `(X, lengths)` data; the bare
`except:` converts any exception into `None`. -/
def base_model (t : Trainer) (d : FlatData) (random_state num_states : Nat) : Option Model :=
  t.fit (t.new num_states random_state false) d

/-- `SelectorConstant.select()`: unconditionally `base_model(n_constant)` on
the word's own `(X, lengths)` data. -/
def SelectorConstant.select (t : Trainer) (s : ModelSelector) : Option Model :=
  base_model t s.Xlengths s.random_state s.n_constant

/-- The candidate state counts
`range(min_n_components, max_n_components + 1)`. -/
def candidates (s : ModelSelector) : List Nat :=
  List.range' s.min_n_components (s.max_n_components + 1 - s.min_n_components)

/-- The word's combined data
`combine_sequences(range(len(self.sequences)), self.sequences)`. -/
def combinedData (s : ModelSelector) : FlatData :=
  combine_sequences (List.range s.sequences.length) s.sequences

/-- `SelectorBIC.get_model_score(n)` evaluated with the current value of
`(self.X, self.lengths)` passed in as `curData` (BIC's `select` reassigns
those fields mid-search).  `base_model(n)` fits on `curData`; the fitted
model is then scored on the combined sequences.  An error value models a
raised exception: an `AttributeError` when `base_model` returned `None`, or
a scoring exception. -/
def SelectorBIC.get_model_score (t : Trainer) (mlog : Nat → ℚ) (s : ModelSelector)
    (curData : FlatData) (n : Nat) : Except Unit ℚ :=
  match base_model t curData s.random_state n with
  | none => .error ()
  | some m =>
    match t.score m (combinedData s) with
    | none => .error ()
    | some L =>
      .ok (-2 * L + ((n : ℚ) ^ 2 + 2 * (n : ℚ) * (m.n_features : ℚ) - 1)
            * mlog s.sequences.length)

/-- The comparison `model_score < best_score_so_far` where the accumulator
starts at `float("Inf")` (modelled by `none`). -/
def bicLt (sc : ℚ) : Option ℚ → Bool
  | none => true
  | some b => decide (sc < b)

/-- The mutable state of BIC's search loop: the current value of
`(self.X, self.lengths)`, the accumulator `best_score_so_far`
(`none` = `float("Inf")`), and the local variable `model`
(`none` = not yet bound, so that `return model` raises `NameError`). -/
structure BICState where
  curData : FlatData
  best : Option ℚ
  modelVar : Option (Option Model)
deriving Repr

/-- The `for n_components in range(...)` loop inside `SelectorBIC.select`'s
`try:` block.  A raised exception aborts the loop; the error value carries
the value of `(self.X, self.lengths)` at that moment, because the `except`
handler's `self.base_model(self.n_constant)` fits on it. -/
def SelectorBIC.selectLoop (t : Trainer) (mlog : Nat → ℚ) (s : ModelSelector) :
    List Nat → BICState → Except FlatData BICState
  | [], st => .ok st
  | n :: rest, st =>
    match SelectorBIC.get_model_score t mlog s st.curData n with
    | .error _ => .error st.curData
    | .ok sc =>
      if bicLt sc st.best then
        SelectorBIC.selectLoop t mlog s rest
          { curData := combinedData s
            best := some sc
            modelVar := some (base_model t (combinedData s) s.random_state n) }
      else
        SelectorBIC.selectLoop t mlog s rest st

/-- `SelectorBIC.select()`: run the search loop inside `try:`; on normal
termination `return model` (a `NameError` if the loop never assigned it,
which the `except Exception:` handler also catches); on any exception return
`self.base_model(self.n_constant)` fitted on the then-current
`(self.X, self.lengths)`. -/
def SelectorBIC.select (t : Trainer) (mlog : Nat → ℚ) (s : ModelSelector) : Option Model :=
  match SelectorBIC.selectLoop t mlog s (candidates s) ⟨s.Xlengths, none, none⟩ with
  | .ok st =>
    match st.modelVar with
    | some m => m
    | none => base_model t st.curData s.random_state s.n_constant
  | .error d => base_model t d s.random_state s.n_constant

/-- The inner loop of `SelectorDIC.select` that accumulates
`sc += hmm_model.score(x, lengths)` over every word of `self.hwords` other
than `self.this_word`; `none` models a scoring exception (which aborts the
whole candidate). -/
def sumOtherScores (t : Trainer) (m : Model) (this_word : String) :
    List (String × FlatData) → Option ℚ
  | [] => some 0
  | (w, d) :: rest =>
    if w = this_word then sumOtherScores t m this_word rest
    else
      match t.score m d, sumOtherScores t m this_word rest with
      | some sc, some acc => some (sc + acc)
      | _, _ => none

/-- One iteration of `SelectorDIC.select`'s candidate loop (the body of its
`try:`): construct with `verbose=self.verbose`, fit on the word's own
`(self.X, self.lengths)`, score it on the same data, sum the scores of all
other words, and divide by `len(self.hwords) - 1`.  Any exception —
including the `ZeroDivisionError` when `self.hwords` has exactly one entry —
yields `none` (the `except: pass`). -/
def SelectorDIC.candidateDIC (t : Trainer) (s : ModelSelector) (nc : Nat) :
    Option (ℚ × Model) :=
  match t.fit (t.new nc s.random_state s.verbose) s.Xlengths with
  | none => none
  | some hmm_model =>
    match t.score hmm_model s.Xlengths with
    | none => none
    | some logL =>
      match sumOtherScores t hmm_model s.this_word s.hwords with
      | none => none
      | some sc =>
        if s.hwords.length = 1 then none
        else some (logL - sc / ((s.hwords.length : ℚ) - 1), hmm_model)

/-- The comparison `dic > l` where `l` starts at `-math.inf`
(modelled by `none`). -/
def dicGt (dic : ℚ) : Option ℚ → Bool
  | none => true
  | some l => decide (l < dic)

/-- The `for nc in range(...)` loop of `SelectorDIC.select`, carrying the
accumulators `l` (`none` = `-math.inf`) and `model`. -/
def SelectorDIC.selectLoop (t : Trainer) (s : ModelSelector) :
    List Nat → Option ℚ → Option Model → Option Model
  | [], _, model => model
  | nc :: rest, l, model =>
    match SelectorDIC.candidateDIC t s nc with
    | none => SelectorDIC.selectLoop t s rest l model
    | some (dic, m) =>
      if dicGt dic l then SelectorDIC.selectLoop t s rest (some dic) (some m)
      else SelectorDIC.selectLoop t s rest l model

/-- `SelectorDIC.select()`. -/
def SelectorDIC.select (t : Trainer) (s : ModelSelector) : Option Model :=
  SelectorDIC.selectLoop t s (candidates s) none none

/-- `n_split = 2 if len(self.sequences) < 3 else 3` in
`SelectorCV.avg_score`. -/
def SelectorCV.n_split (s : ModelSelector) : Nat :=
  if s.sequences.length < 3 then 2 else 3

/-- Modelled from the spec: sklearn's `KFold` splitter is an external
collaborator whose code is not in the repository sources.  Per its contract
(and the spec's "contiguous folds"), splitting `n` samples into `k` folds
without shuffling gives the first `n % k` folds `n / k + 1` test samples and
the rest `n / k`. -/
def fold_sizes (k n : Nat) : List Nat :=
  (List.range k).map (fun i => if i < n % k then n / k + 1 else n / k)

/-- Modelled from the spec: the `i`-th test fold is the contiguous index
block starting after the preceding folds. -/
def kfold_test_folds (k n : Nat) : List (List Nat) :=
  (List.range k).map (fun i =>
    (List.range ((fold_sizes k n).getD i 0)).map (· + ((fold_sizes k n).take i).sum))

/-- Modelled from the spec: `KFold(n_splits=k).split(X)` yields, for each
test fold, the pair (train indices = all others, test indices). -/
def kfold_splits (k n : Nat) : List (List Nat × List Nat) :=
  (kfold_test_folds k n).map (fun te =>
    ((List.range n).filter (fun j => !(te.contains j)), te))

/-- The body of `SelectorCV.avg_score`'s fold loop, threading the pair
(`scores`, `hmm_model`).  The variable `hmm_model` is rebound to the freshly
constructed object *before* `fit` is called, so a fold whose fit raises
still leaves `hmm_model` bound to that unfitted object; a fold whose scoring
raises leaves it bound to the fitted model but appends no score. -/
def cvFoldStep (t : Trainer) (s : ModelSelector) (n_comp : Nat)
    (acc : List ℚ × Option Model) (fold : List Nat × List Nat) :
    List ℚ × Option Model :=
  let dtr := combine_sequences fold.1 s.sequences
  let dte := combine_sequences fold.2 s.sequences
  let hm0 := t.new n_comp s.random_state s.verbose
  match t.fit hm0 dtr with
  | none => (acc.1, some hm0)
  | some fm =>
    match t.score fm dte with
    | none => (acc.1, some fm)
    | some sc => (acc.1 ++ [sc], some fm)

/-- The fold loop of `SelectorCV.avg_score(n_comp)` run to completion:
the final (`scores`, `hmm_model`) pair. -/
def SelectorCV.cvRun (t : Trainer) (s : ModelSelector) (n_comp : Nat) :
    List ℚ × Option Model :=
  (kfold_splits (SelectorCV.n_split s) s.sequences.length).foldl
    (cvFoldStep t s n_comp) ([], none)

/-- `SelectorCV.avg_score(n_comp)`.  `KFold(...).split` raises a
`ValueError` — outside any `try:` in this method — when the number of
samples is smaller than `n_splits`; that is the error case.  Otherwise the
result is (`np.mean(scores)` if `scores` is non-empty else `-math.inf`
(modelled by `none`), the final value of `hmm_model`). -/
def SelectorCV.avg_score (t : Trainer) (s : ModelSelector) (n_comp : Nat) :
    Except Unit (Option ℚ × Option Model) :=
  if s.sequences.length < SelectorCV.n_split s then .error ()
  else
    let r := SelectorCV.cvRun t s n_comp
    .ok ((if r.1.isEmpty then none else some (r.1.sum / (r.1.length : ℚ))), r.2)

/-- The comparison `score > lowest_score` on values that may be
`-math.inf` (modelled by `none`). -/
def cvGt (sc lowest : Option ℚ) : Bool :=
  match sc, lowest with
  | none, _ => false
  | some _, none => true
  | some a, some b => decide (b < a)

/-- The `for n_comp in range(...)` loop of `SelectorCV.select`, carrying the
accumulators `lowest_score` (`none` = `-math.inf`) and `model`.  An
exception raised by `avg_score` propagates. -/
def SelectorCV.selectLoop (t : Trainer) (s : ModelSelector) :
    List Nat → Option ℚ → Option Model → Except Unit (Option Model)
  | [], _, model => .ok model
  | n :: rest, lowest, model =>
    match SelectorCV.avg_score t s n with
    | .error e => .error e
    | .ok (sc, hmm_model) =>
      if cvGt sc lowest then SelectorCV.selectLoop t s rest sc hmm_model
      else SelectorCV.selectLoop t s rest lowest model

/-- `SelectorCV.select()`.  The `Except` result makes the uncaught
`ValueError` path explicit: `.error` is an exception propagating to the
caller. -/
def SelectorCV.select (t : Trainer) (s : ModelSelector) : Except Unit (Option Model) :=
  SelectorCV.selectLoop t s (candidates s) none none

/-! ### Concrete instances used by witnesses and counterexamples -/

/-- A tiny word: 2 utterance-sequences over D = 1 features, with 2 and 1
frames respectively (3 frames total, so frame count ≠ sequence count). -/
def seqsW : List Utterance := [[[0], [1]], [[2]]]

/-- A deterministic trainer on which every fit succeeds: the fitted model
records the requested state count, reports one feature, and is tagged `1`;
a model's score on data `d` is `n_components * len(d.lengths)`. -/
def tW : Trainer where
  new := fun n _ _ => ⟨n, 1, 0⟩
  fit := fun m _ => some ⟨m.n_components, 1, 1⟩
  score := fun m d => some ((m.n_components : ℚ) * (d.lengths.length : ℚ))

/-- A stand-in for `math.log` distinguishing the sequence count 2 from the
frame count 3. -/
def mlogW : Nat → ℚ := fun n => if n = 2 then 7 else 100

/-- A selector bound to the word FISH with the data above,
`n_constant = 3`, search range 2..4. -/
def sW3 : ModelSelector where
  sequences := seqsW
  Xlengths := combine_sequences [0, 1] seqsW
  hwords := [("FISH", combine_sequences [0, 1] seqsW)]
  this_word := "FISH"
  n_constant := 3
  min_n_components := 2
  max_n_components := 4
  random_state := 14
  verbose := false

/-- The same selector with an empty search range (min 5 > max 4). -/
def sW9 : ModelSelector := { sW3 with min_n_components := 5, max_n_components := 4 }

/-! ### Claim theorems -/

/-- C3: for a candidate state count `n` whose fit (on the current working
data) and whose scoring on the word's combined sequences both succeed,
`SelectorBIC.get_model_score` returns exactly
`-2*L + (n^2 + 2*n*D − 1) * log N` where `L` is the fitted model's total
log-likelihood on the combined sequences, `D` the model's
`n_features`, and `N` the number of utterance-sequences of the word
(`len(self.sequences)`), not the number of frames. -/
theorem bic_score_closed_form (t : Trainer) (mlog : Nat → ℚ) (s : ModelSelector)
    (curData : FlatData) (n : Nat) (m : Model) (L : ℚ)
    (hfit : base_model t curData s.random_state n = some m)
    (hscore : t.score m (combinedData s) = some L) :
    SelectorBIC.get_model_score t mlog s curData n =
      .ok (-2 * L + ((n : ℚ) ^ 2 + 2 * (n : ℚ) * (m.n_features : ℚ) - 1)
            * mlog s.sequences.length) := by
  unfold SelectorBIC.get_model_score
  rw [hfit]
  simp [hscore]

/-- Witness for C3: on the concrete word with N = 2 utterance-sequences and
3 frames, the BIC score at n = 2 is
`-2*4 + (2^2 + 2*2*1 - 1) * mlogW 2 = -8 + 7 * 7 = 41`; in particular the
penalty uses `mlogW 2` (the sequence count), not `mlogW 3` (the frame
count). -/
theorem bic_score_closed_form_witness :
    SelectorBIC.get_model_score tW mlogW sW3 sW3.Xlengths 2 = .ok 41 := by
  have h := bic_score_closed_form tW mlogW sW3 sW3.Xlengths 2 ⟨2, 1, 1⟩ 4
    (by decide) (by norm_num [tW, combinedData, sW3, seqsW, combine_sequences])
  rw [h]
  norm_num [mlogW, sW3, seqsW]

/-- C8: if `self.hwords` contains only the target word itself, the division
by `len(self.hwords) - 1 = 0` raises a `ZeroDivisionError` inside every
candidate's `try:`, so every candidate is skipped and
`SelectorDIC.select` returns `None` without raising. -/
theorem dic_single_word_returns_none (t : Trainer) (s : ModelSelector) (d : FlatData)
    (hw : s.hwords = [(s.this_word, d)]) :
    (∀ nc, SelectorDIC.candidateDIC t s nc = none) ∧ SelectorDIC.select t s = none := by
  have hall : ∀ nc, SelectorDIC.candidateDIC t s nc = none := by
    intro nc
    unfold SelectorDIC.candidateDIC
    cases hfit : t.fit (t.new nc s.random_state s.verbose) s.Xlengths with
    | none => rfl
    | some m =>
      cases hsc : t.score m s.Xlengths with
      | none => simp [hsc]
      | some logL => simp [hsc, hw, sumOtherScores]
  refine ⟨hall, ?_⟩
  have hloop : ∀ l, SelectorDIC.selectLoop t s l none none = none := by
    intro l
    induction l with
    | nil => rfl
    | cons nc rest ih =>
      unfold SelectorDIC.selectLoop
      rw [hall nc]
      exact ih
  exact hloop (candidates s)

/-- Witness for C8: with FISH the only word in the flat index, DIC
selection returns `None`. -/
theorem dic_single_word_returns_none_witness :
    SelectorDIC.select tW sW3 = none :=
  (dic_single_word_returns_none tW sW3 (combine_sequences [0, 1] seqsW) (by decide)).2

/-- C9: when `min_n_components > max_n_components` the candidate range is
empty, the loop body never runs, `return model` raises a `NameError` that
the `except Exception:` handler catches, and the result is
`self.base_model(self.n_constant)` — exactly the Constant strategy's result
on the same data. -/
theorem bic_empty_range_is_constant (t : Trainer) (mlog : Nat → ℚ) (s : ModelSelector)
    (h : s.max_n_components < s.min_n_components) :
    SelectorBIC.select t mlog s = SelectorConstant.select t s := by
  have hc : candidates s = [] := by
    unfold candidates
    have h0 : s.max_n_components + 1 - s.min_n_components = 0 := by omega
    rw [h0]
    rfl
  unfold SelectorBIC.select
  rw [hc]
  rfl

/-- Witness for C9: with range 5..4 the BIC selector returns the Constant
selector's result. -/
theorem bic_empty_range_is_constant_witness :
    SelectorBIC.select tW mlogW sW9 = SelectorConstant.select tW sW9 :=
  bic_empty_range_is_constant tW mlogW sW9 (by decide)

/-- A trainer on which fitting fails exactly for 2 requested states and
every score is 0. -/
def tC1 : Trainer where
  new := fun n _ _ => ⟨n, 1, 0⟩
  fit := fun m _ => if m.n_components = 2 then none else some ⟨m.n_components, 1, 1⟩
  score := fun _ _ => some 0

/-- The FISH selector with range 2..3 and `n_constant = 5`. -/
def sC1 : ModelSelector :=
  { sW3 with min_n_components := 2, max_n_components := 3, n_constant := 5 }

/-- Counterexample to C1: on `tC1`/`sC1` the candidate n = 2 fails but
n = 3 succeeds; the claim demands that the failure be absorbed and that the
result equal the Constant strategy's result only when *every* candidate
fails.  In fact the first failure aborts the whole search: the result is the
Constant fallback (the fitted 5-state model) even though candidate 3 does
not fail. -/
theorem bic_absorbs_failures_counterexample :
    SelectorBIC.select tC1 mlogW sC1 = SelectorConstant.select tC1 sC1 ∧
      (SelectorBIC.get_model_score tC1 mlogW sC1 sC1.Xlengths 3).isOk = true ∧
      SelectorBIC.select tC1 mlogW sC1 = some ⟨5, 1, 1⟩ := by
  refine ⟨?_, ?_, ?_⟩ <;> decide

/-- C1 amended: a per-candidate failure in `SelectorBIC.select` is *not*
absorbed: the single `try:` wraps the whole search loop, so the first
candidate that fails (here stated for the first candidate of a non-empty
range) aborts the search and the result is the Constant strategy's result,
regardless of whether later candidates would succeed. -/
theorem bic_first_failure_falls_back (t : Trainer) (mlog : Nat → ℚ) (s : ModelSelector)
    (hne : s.min_n_components ≤ s.max_n_components)
    (hfail : SelectorBIC.get_model_score t mlog s s.Xlengths s.min_n_components
      = .error ()) :
    SelectorBIC.select t mlog s = SelectorConstant.select t s := by
  obtain ⟨k, hk⟩ : ∃ k, s.max_n_components + 1 - s.min_n_components = k + 1 :=
    ⟨s.max_n_components - s.min_n_components, by omega⟩
  have hc : candidates s
      = s.min_n_components :: List.range' (s.min_n_components + 1) k := by
    unfold candidates
    rw [hk]
    rfl
  unfold SelectorBIC.select
  rw [hc]
  simp only [SelectorBIC.selectLoop, hfail]
  rfl

/-- Witness for amended C1: on `tC1`/`sC1` the first candidate (n = 2)
fails and the result is the Constant strategy's result. -/
theorem bic_first_failure_falls_back_witness :
    SelectorBIC.select tC1 mlogW sC1 = SelectorConstant.select tC1 sC1 :=
  bic_first_failure_falls_back tC1 mlogW sC1 (by decide) rfl

/-- A word with a single utterance-sequence (one frame, D = 1). -/
def sC2 : ModelSelector :=
  { sW3 with sequences := [[[0]]], Xlengths := combine_sequences [0] [[[0]]] }

/-- Counterexample to C2: with a word that has fewer than 2
utterance-sequences, `KFold(n_splits=2).split` raises a `ValueError`
*outside* the fold loop's `try:`, and `SelectorCV.select` propagates it to
the caller (the `.error` outcome) even on a trainer on which every fit
succeeds. -/
theorem select_never_raises_counterexample :
    SelectorCV.select tW sC2 = .error () := rfl

/-- Helper for C2: `avg_score` raises exactly when the word has fewer than
2 utterance-sequences. -/
theorem cv_avg_score_error_iff (t : Trainer) (s : ModelSelector) (n : Nat) :
    SelectorCV.avg_score t s n = .error () ↔ s.sequences.length < 2 := by
  unfold SelectorCV.avg_score SelectorCV.n_split
  split_ifs with h1 h2 <;> simp_all
  omega

/-- Helper for C2: the search loop raises exactly when the word has fewer
than 2 utterance-sequences and at least one candidate is examined. -/
theorem cv_loop_error_iff (t : Trainer) (s : ModelSelector) :
    ∀ (l : List Nat) (lowest : Option ℚ) (model : Option Model),
      SelectorCV.selectLoop t s l lowest model = .error () ↔
        (s.sequences.length < 2 ∧ l ≠ []) := by
  intro l
  induction l with
  | nil => intro lowest model; simp [SelectorCV.selectLoop]
  | cons n rest ih =>
    intro lowest model
    unfold SelectorCV.selectLoop
    cases hav : SelectorCV.avg_score t s n with
    | error e =>
      have hlen : s.sequences.length < 2 := by
        have := (cv_avg_score_error_iff t s n).mp (by cases e; exact hav)
        exact this
      simp [hlen]
    | ok p =>
      have hlen : ¬ s.sequences.length < 2 := by
        intro hlt
        have := (cv_avg_score_error_iff t s n).mpr hlt
        rw [hav] at this
        exact Except.noConfusion this
      obtain ⟨sc, hmm⟩ := p
      simp only []
      split <;> rw [ih] <;> simp [hlen]

/-- C2 amended: `SelectorConstant.select`, `SelectorBIC.select` and
`SelectorDIC.select` are total functions into `Option Model` (every internal
exception path is caught by the source's handlers, as the embedding makes
explicit), but `SelectorCV.select` does propagate an exception to the
caller — precisely when the word has fewer than 2 utterance-sequences and
the candidate range is non-empty, because `KFold(...).split` raises outside
any `try:`. -/
theorem cv_select_raises_iff (t : Trainer) (s : ModelSelector) :
    SelectorCV.select t s = .error () ↔
      (s.sequences.length < 2 ∧ candidates s ≠ []) := by
  unfold SelectorCV.select
  exact cv_loop_error_iff t s (candidates s) none none

/-- Witness for amended C2: on the 2-sequence word FISH, `SelectorCV.select`
does not raise. -/
theorem cv_select_raises_iff_witness :
    SelectorCV.select tW sW3 ≠ .error () := fun h =>
  absurd ((cv_select_raises_iff tW sW3).mp h) (by decide)

/-- C6: the fold count of `SelectorCV.avg_score` is always 2 or 3: it is 3
exactly when the word has at least 3 utterance-sequences and 2 otherwise,
and whenever the split is feasible (`n_split ≤` number of sequences) the
splitter produces exactly `n_split` folds. -/
theorem cv_fold_count (s : ModelSelector) :
    2 ≤ SelectorCV.n_split s ∧ SelectorCV.n_split s ≤ 3 ∧
      (3 ≤ s.sequences.length → SelectorCV.n_split s = 3) ∧
      (s.sequences.length < 3 → SelectorCV.n_split s = 2) ∧
      (SelectorCV.n_split s ≤ s.sequences.length →
        (kfold_splits (SelectorCV.n_split s) s.sequences.length).length
          = SelectorCV.n_split s) := by
  unfold SelectorCV.n_split kfold_splits kfold_test_folds
  split_ifs with h <;> simp <;> omega

/-- Witness for C6: the 2-sequence word FISH gets exactly
`n_split sW3 = 2` folds. -/
theorem cv_fold_count_witness :
    (kfold_splits (SelectorCV.n_split sW3) sW3.sequences.length).length
      = SelectorCV.n_split sW3 :=
  (cv_fold_count sW3).2.2.2.2 (by decide)

/-- Helper: when the fitted model scores every word other than `tw`
successfully (with value `g p`), the DIC inner loop returns the sum of
those scores. -/
theorem sumOtherScores_eq (t : Trainer) (m : Model) (tw : String)
    (g : String × FlatData → ℚ) :
    ∀ l : List (String × FlatData),
      (∀ p ∈ l, p.1 ≠ tw → t.score m p.2 = some (g p)) →
      sumOtherScores t m tw l = some (((l.filter (fun p => p.1 ≠ tw)).map g).sum) := by
  intro l
  induction l with
  | nil => intro _; simp [sumOtherScores]
  | cons p rest ih =>
    intro h
    obtain ⟨w, d⟩ := p
    by_cases hw : w = tw
    · subst hw
      simp only [sumOtherScores, if_pos rfl]
      rw [ih (fun q hq => h q (List.mem_cons_of_mem _ hq))]
      simp
    · simp only [sumOtherScores, if_neg hw]
      rw [h (w, d) (List.mem_cons_self _ _) hw,
        ih (fun q hq => h q (List.mem_cons_of_mem _ hq))]
      simp [hw]

/-- C4: for a candidate `nc` whose fit on the word's own data succeeds, and
which scores that data and every other word's flattened data successfully,
`SelectorDIC` computes the candidate score as the word's own log-likelihood
minus the *mean* of the log-likelihoods the same model assigns to the other
words' data (the divisor `len(self.hwords) - 1` equals the number of other
words because the target word occurs exactly once in `hwords`). -/
theorem dic_score_formula (t : Trainer) (s : ModelSelector) (nc : Nat) (m : Model)
    (logL : ℚ) (g : String × FlatData → ℚ)
    (hcount : (s.hwords.filter (fun p => p.1 ≠ s.this_word)).length + 1
      = s.hwords.length)
    (hpos : 1 ≤ (s.hwords.filter (fun p => p.1 ≠ s.this_word)).length)
    (hfit : t.fit (t.new nc s.random_state s.verbose) s.Xlengths = some m)
    (hself : t.score m s.Xlengths = some logL)
    (hothers : ∀ p ∈ s.hwords, p.1 ≠ s.this_word → t.score m p.2 = some (g p)) :
    SelectorDIC.candidateDIC t s nc =
      some (logL - ((s.hwords.filter (fun p => p.1 ≠ s.this_word)).map g).sum
          / ((s.hwords.filter (fun p => p.1 ≠ s.this_word)).length : ℚ), m) := by
  have hsum := sumOtherScores_eq t m s.this_word g s.hwords hothers
  have hne : ¬ s.hwords.length = 1 := by omega
  have hq : ((s.hwords.length : ℚ) - 1)
      = ((s.hwords.filter (fun p => p.1 ≠ s.this_word)).length : ℚ) := by
    rw [← hcount]
    push_cast
    ring
  unfold SelectorDIC.candidateDIC
  rw [hfit]
  simp only [hself, hsum, hq]
  simp [hne]

/-- A second word for the two-word DIC scenario. -/
def sW4 : ModelSelector :=
  { sW3 with hwords := [("FISH", combine_sequences [0, 1] seqsW),
      ("CHOCOLATE", ⟨[[5]], [1]⟩)] }

/-- Witness for C4: with exactly two words FISH (2 sequences) and CHOCOLATE
(1 sequence) and trainer `tW`, the DIC score of FISH at n = 2 is
`scoreFISH - scoreCHOCOLATE = 4 - 2 = 2` — the mean over the single other
word. -/
theorem dic_score_formula_witness :
    SelectorDIC.candidateDIC tW sW4 2 = some (2, ⟨2, 1, 1⟩) := by
  have h := dic_score_formula tW sW4 2 ⟨2, 1, 1⟩ 4 (fun _ => 2)
    (by decide) (by decide) (by decide)
    (by norm_num [tW, sW4, sW3, seqsW, combine_sequences])
    (by
      intro p hp hne
      have hthis : sW4.this_word = "FISH" := rfl
      rw [hthis] at hne
      simp only [sW4, sW3, List.mem_cons, List.not_mem_nil, or_false] at hp
      rcases hp with h1 | h1 <;> subst h1
      · exact absurd rfl hne
      · norm_num [tW])
  rw [h]
  norm_num [sW4, sW3, List.filter_cons, List.sum_cons,
    show ("CHOCOLATE" : String) ≠ "FISH" from by decide]

/-- The score a single fold contributes in `SelectorCV.avg_score`:
`none` when the fold's fit or its held-out scoring raises. -/
def cvFoldScore (t : Trainer) (s : ModelSelector) (n_comp : Nat)
    (fold : List Nat × List Nat) : Option ℚ :=
  match t.fit (t.new n_comp s.random_state s.verbose)
      (combine_sequences fold.1 s.sequences) with
  | none => none
  | some fm => t.score fm (combine_sequences fold.2 s.sequences)

/-- The value the variable `hmm_model` holds after one fold iteration: the
fitted model when the fold's fit succeeded, otherwise the freshly
constructed, unfitted object the variable was rebound to before `fit`
raised. -/
def foldModel (t : Trainer) (s : ModelSelector) (n_comp : Nat)
    (fold : List Nat × List Nat) : Model :=
  match t.fit (t.new n_comp s.random_state s.verbose)
      (combine_sequences fold.1 s.sequences) with
  | none => t.new n_comp s.random_state s.verbose
  | some fm => fm

theorem cvFoldStep_fst (t : Trainer) (s : ModelSelector) (n_comp : Nat)
    (acc : List ℚ × Option Model) (fold : List Nat × List Nat) :
    (cvFoldStep t s n_comp acc fold).1
      = acc.1 ++ (cvFoldScore t s n_comp fold).toList := by
  unfold cvFoldStep cvFoldScore
  cases hf : t.fit (t.new n_comp s.random_state s.verbose)
      (combine_sequences fold.1 s.sequences) with
  | none => simp [hf]
  | some fm =>
    cases hs : t.score fm (combine_sequences fold.2 s.sequences) <;> simp [hf, hs]

theorem cvFoldStep_snd (t : Trainer) (s : ModelSelector) (n_comp : Nat)
    (acc : List ℚ × Option Model) (fold : List Nat × List Nat) :
    (cvFoldStep t s n_comp acc fold).2 = some (foldModel t s n_comp fold) := by
  unfold cvFoldStep foldModel
  cases hf : t.fit (t.new n_comp s.random_state s.verbose)
      (combine_sequences fold.1 s.sequences) with
  | none => simp [hf]
  | some fm =>
    cases hs : t.score fm (combine_sequences fold.2 s.sequences) <;> simp [hf, hs]

/-- The fold loop's `scores` list is the concatenation of exactly the
successful folds' scores: a failing fold contributes nothing. -/
theorem cvRun_fst (t : Trainer) (s : ModelSelector) (n_comp : Nat) :
    ∀ (folds : List (List Nat × List Nat)) (st : List ℚ × Option Model),
      (folds.foldl (cvFoldStep t s n_comp) st).1
        = st.1 ++ folds.filterMap (cvFoldScore t s n_comp) := by
  intro folds
  induction folds with
  | nil => intro st; simp
  | cons f rest ih =>
    intro st
    rw [List.foldl_cons, ih, cvFoldStep_fst]
    cases h : cvFoldScore t s n_comp f <;> simp [List.filterMap_cons, h]

/-- The fold loop's final `hmm_model` is the model object of the *last*
fold, fitted or not. -/
theorem cvRun_snd (t : Trainer) (s : ModelSelector) (n_comp : Nat) :
    ∀ (folds : List (List Nat × List Nat)) (st : List ℚ × Option Model),
      folds ≠ [] →
      (folds.foldl (cvFoldStep t s n_comp) st).2
        = some (foldModel t s n_comp (folds.getLastD ([], []))) := by
  intro folds
  induction folds with
  | nil => intro st h; exact absurd rfl h
  | cons f rest ih =>
    intro st _
    rw [List.foldl_cons]
    cases rest with
    | nil => simp [List.foldl_nil, cvFoldStep_snd]
    | cons f1 rs =>
      rw [ih _ (by simp)]
      simp [List.getLastD_cons]

/-- The scores of the successful folds of candidate `n`. -/
def cvScores (t : Trainer) (s : ModelSelector) (n : Nat) : List ℚ :=
  (kfold_splits (SelectorCV.n_split s) s.sequences.length).filterMap
    (cvFoldScore t s n)

/-- `np.mean(scores) if len(scores) else -math.inf`. -/
def cvAvg (l : List ℚ) : Option ℚ :=
  if l.isEmpty then none else some (l.sum / (l.length : ℚ))

/-- The model object of the last fold of candidate `n`'s fold loop. -/
def lastFoldModel (t : Trainer) (s : ModelSelector) (n : Nat) : Model :=
  foldModel t s n
    ((kfold_splits (SelectorCV.n_split s) s.sequences.length).getLastD ([], []))

/-- With at least 2 utterance-sequences, `avg_score` does not raise and
returns the mean over exactly the successful folds' scores (`-inf` when
there are none) together with the last fold's model object. -/
theorem cv_avg_score_eq (t : Trainer) (s : ModelSelector) (n : Nat)
    (h2 : 2 ≤ s.sequences.length) :
    SelectorCV.avg_score t s n
      = .ok (cvAvg (cvScores t s n), some (lastFoldModel t s n)) := by
  have hks : 2 ≤ SelectorCV.n_split s ∧ SelectorCV.n_split s ≤ s.sequences.length := by
    unfold SelectorCV.n_split
    split_ifs with h <;> omega
  have hnotlt : ¬ s.sequences.length < SelectorCV.n_split s := by omega
  have hlen : (kfold_splits (SelectorCV.n_split s) s.sequences.length).length
      = SelectorCV.n_split s := by
    unfold kfold_splits kfold_test_folds
    simp
  have hnil : kfold_splits (SelectorCV.n_split s) s.sequences.length ≠ [] := by
    intro h
    rw [h] at hlen
    simp at hlen
    omega
  unfold SelectorCV.avg_score SelectorCV.cvRun
  rw [if_neg hnotlt]
  simp only [cvRun_fst t s n, cvRun_snd t s n _ _ hnil]
  unfold cvAvg cvScores lastFoldModel
  simp

/-- If every examined candidate's average is `-inf`, the search loop keeps
its initial `model`. -/
theorem cv_loop_all_bot (t : Trainer) (s : ModelSelector) :
    ∀ (l : List Nat) (lowest : Option ℚ) (model : Option Model),
      (∀ n ∈ l, ∃ m, SelectorCV.avg_score t s n = .ok (none, m)) →
      SelectorCV.selectLoop t s l lowest model = .ok model := by
  intro l
  induction l with
  | nil => intro _ _ _; rfl
  | cons n rest ih =>
    intro lowest model h
    obtain ⟨m, hm⟩ := h n (List.mem_cons_self _ _)
    unfold SelectorCV.selectLoop
    rw [hm]
    simp only [cvGt]
    exact ih lowest model (fun k hk => h k (List.mem_cons_of_mem _ hk))

/-- C7: a fold whose fit or scoring fails contributes no score (the
`scores` list collects exactly the successful folds); for a candidate all
of whose folds fail the average is `-inf` (`none`); and when that happens
for every candidate, `select` returns `None` (no candidate with average
`-inf` is ever chosen over the initial accumulator). -/
theorem cv_fold_failures_excluded (t : Trainer) (s : ModelSelector)
    (h2 : 2 ≤ s.sequences.length)
    (hfail : ∀ n ∈ candidates s,
      ∀ fold ∈ kfold_splits (SelectorCV.n_split s) s.sequences.length,
        cvFoldScore t s n fold = none) :
    (∀ (n : Nat) (st : List ℚ × Option Model),
      ((kfold_splits (SelectorCV.n_split s) s.sequences.length).foldl
          (cvFoldStep t s n) st).1 = st.1 ++ cvScores t s n)
    ∧ (∀ n ∈ candidates s,
        SelectorCV.avg_score t s n = .ok (none, some (lastFoldModel t s n)))
    ∧ SelectorCV.select t s = .ok none := by
  refine ⟨fun n st => cvRun_fst t s n _ st, ?_, ?_⟩
  · intro n hn
    have hempty : cvScores t s n = [] := by
      unfold cvScores
      exact List.filterMap_eq_nil_iff.mpr (hfail n hn)
    have := cv_avg_score_eq t s n h2
    rw [hempty] at this
    simpa [cvAvg] using this
  · apply cv_loop_all_bot
    intro n hn
    have hempty : cvScores t s n = [] := by
      unfold cvScores
      exact List.filterMap_eq_nil_iff.mpr (hfail n hn)
    refine ⟨some (lastFoldModel t s n), ?_⟩
    have := cv_avg_score_eq t s n h2
    rw [hempty] at this
    simpa [cvAvg] using this

/-- A trainer on which every fit fails. -/
def tFail : Trainer where
  new := fun n _ _ => ⟨n, 0, 0⟩
  fit := fun _ _ => none
  score := fun _ _ => some 0

/-- Witness for C7: with every fold of every candidate failing to fit,
`SelectorCV.select` returns `None` without raising. -/
theorem cv_fold_failures_excluded_witness :
    SelectorCV.select tFail sW3 = .ok none :=
  (cv_fold_failures_excluded tFail sW3 (by decide) (by decide)).2.2

/-- The BIC value of candidate `n` computed on the combined data (the value
`get_model_score` returns when it does not raise). -/
def bicVal (t : Trainer) (mlog : Nat → ℚ) (s : ModelSelector) (n : Nat) : ℚ :=
  match SelectorBIC.get_model_score t mlog s (combinedData s) n with
  | .ok q => q
  | .error _ => 0

theorem bicLt_none (q : ℚ) : bicLt q none = true := rfl

theorem bicLt_some_iff (q b : ℚ) : bicLt q (some b) = true ↔ q < b := by
  simp [bicLt]

theorem bicLt_some_false_iff (q b : ℚ) : bicLt q (some b) = false ↔ b ≤ q := by
  simp [bicLt, not_lt]

/-- Invariant of BIC's search loop when every remaining candidate scores
without raising and the working data already equals the combined data:
either no candidate beats the accumulator and the state is unchanged, or
the loop ends in the state of a remaining candidate whose BIC value is
minimal among the remaining candidates (and beats the accumulator). -/
theorem bic_loop_min (t : Trainer) (mlog : Nat → ℚ) (s : ModelSelector) :
    ∀ (l : List Nat) (b : Option ℚ) (mv : Option (Option Model)),
      (∀ n ∈ l, ∃ q,
        SelectorBIC.get_model_score t mlog s (combinedData s) n = .ok q) →
      (SelectorBIC.selectLoop t mlog s l ⟨combinedData s, b, mv⟩
            = .ok ⟨combinedData s, b, mv⟩
          ∧ ∀ n ∈ l, bicLt (bicVal t mlog s n) b = false)
        ∨ (∃ n ∈ l,
            SelectorBIC.selectLoop t mlog s l ⟨combinedData s, b, mv⟩
              = .ok ⟨combinedData s, some (bicVal t mlog s n),
                  some (base_model t (combinedData s) s.random_state n)⟩
            ∧ bicLt (bicVal t mlog s n) b = true
            ∧ ∀ k ∈ l, bicVal t mlog s n ≤ bicVal t mlog s k) := by
  intro l
  induction l with
  | nil =>
    intro b mv _
    left
    exact ⟨rfl, by simp⟩
  | cons n rest ih =>
    intro b mv hall
    obtain ⟨q, hq⟩ := hall n (List.mem_cons_self _ _)
    have hval : bicVal t mlog s n = q := by
      unfold bicVal
      rw [hq]
    have hrest : ∀ k ∈ rest, ∃ p,
        SelectorBIC.get_model_score t mlog s (combinedData s) k = .ok p :=
      fun k hk => hall k (List.mem_cons_of_mem _ hk)
    have hstep : SelectorBIC.selectLoop t mlog s (n :: rest) ⟨combinedData s, b, mv⟩
        = if bicLt q b then
            SelectorBIC.selectLoop t mlog s rest
              ⟨combinedData s, some q,
                some (base_model t (combinedData s) s.random_state n)⟩
          else SelectorBIC.selectLoop t mlog s rest ⟨combinedData s, b, mv⟩ := by
      simp only [SelectorBIC.selectLoop, hq]
    cases hlt : bicLt q b with
    | true =>
      rw [hstep, if_pos hlt]
      rcases ih (some q) (some (base_model t (combinedData s) s.random_state n)) hrest
        with ⟨hloop, hmin⟩ | ⟨n', hmem', hloop, hlt', hmin'⟩
      · right
        refine ⟨n, List.mem_cons_self _ _, ?_, ?_, ?_⟩
        · rw [hval]
          exact hloop
        · rw [hval]
          exact hlt
        · intro k hk
          rcases List.mem_cons.mp hk with rfl | hk'
          · exact le_refl _
          · rw [hval]
            exact (bicLt_some_false_iff _ _).mp (hmin k hk')
      · right
        refine ⟨n', List.mem_cons_of_mem _ hmem', hloop, ?_, ?_⟩
        · cases b with
          | none => exact bicLt_none _
          | some b0 =>
            have h1 : bicVal t mlog s n' < q := (bicLt_some_iff _ _).mp hlt'
            have h2 : q < b0 := (bicLt_some_iff _ _).mp hlt
            exact (bicLt_some_iff _ _).mpr (lt_trans h1 h2)
        · intro k hk
          rcases List.mem_cons.mp hk with rfl | hk'
          · rw [hval]
            exact le_of_lt ((bicLt_some_iff _ _).mp hlt')
          · exact hmin' k hk'
    | false =>
      rw [hstep, if_neg (by simp [hlt])]
      rcases ih b mv hrest with ⟨hloop, hmin⟩ | ⟨n', hmem', hloop, hlt', hmin'⟩
      · left
        refine ⟨hloop, ?_⟩
        intro k hk
        rcases List.mem_cons.mp hk with rfl | hk'
        · rw [hval]
          exact hlt
        · exact hmin k hk'
      · right
        refine ⟨n', List.mem_cons_of_mem _ hmem', hloop, hlt', ?_⟩
        intro k hk
        rcases List.mem_cons.mp hk with rfl | hk'
        · cases b with
          | none => simp [bicLt] at hlt
          | some b0 =>
            have h1 : bicVal t mlog s n' < b0 := (bicLt_some_iff _ _).mp hlt'
            have h2 : b0 ≤ q := (bicLt_some_false_iff _ _).mp hlt
            rw [hval]
            exact le_of_lt (lt_of_lt_of_le h1 h2)
        · exact hmin' k hk'

/-- C5 amended: when the word's stored flat data agrees with its combined
sequences (the documented consistency invariant) and *every* candidate in a
non-empty range scores without raising — not merely one, since a single
failure aborts the search (see the counterexample) — `SelectorBIC.select`
returns the model fitted (on the combined data) for a candidate `n` whose
BIC value is minimal over the whole range, and that fit succeeds. -/
theorem bic_all_success_returns_minimizer (t : Trainer) (mlog : Nat → ℚ)
    (s : ModelSelector)
    (hdata : s.Xlengths = combinedData s)
    (hne : s.min_n_components ≤ s.max_n_components)
    (hall : ∀ n ∈ candidates s, ∃ q,
      SelectorBIC.get_model_score t mlog s (combinedData s) n = .ok q) :
    ∃ n ∈ candidates s,
      SelectorBIC.select t mlog s = base_model t (combinedData s) s.random_state n
      ∧ (∃ m, SelectorBIC.select t mlog s = some m)
      ∧ ∀ k ∈ candidates s, bicVal t mlog s n ≤ bicVal t mlog s k := by
  have hmem : s.min_n_components ∈ candidates s := by
    unfold candidates
    rw [List.mem_range'_1]
    omega
  rcases bic_loop_min t mlog s (candidates s) none none hall
    with ⟨_, hfalse⟩ | ⟨n, hmemn, hloop, _, hmin⟩
  · have h := hfalse _ hmem
    rw [bicLt_none] at h
    exact absurd h (by simp)
  · have hsel : SelectorBIC.select t mlog s
        = base_model t (combinedData s) s.random_state n := by
      unfold SelectorBIC.select
      rw [hdata, hloop]
    refine ⟨n, hmemn, hsel, ?_, hmin⟩
    obtain ⟨q, hq⟩ := hall n hmemn
    cases hbm : base_model t (combinedData s) s.random_state n with
    | none =>
      unfold SelectorBIC.get_model_score at hq
      rw [hbm] at hq
      exact Except.noConfusion hq
    | some m =>
      exact ⟨m, by rw [hsel, hbm]⟩

/-- A trainer on which fitting fails exactly for 3 requested states. -/
def tC5 : Trainer where
  new := fun n _ _ => ⟨n, 1, 0⟩
  fit := fun m _ => if m.n_components = 3 then none else some ⟨m.n_components, 1, 1⟩
  score := fun _ _ => some 0

/-- Counterexample to C5: with range 2..3 and `n_constant = 5`, candidate
n = 2 succeeds (so "at least one candidate succeeds" holds) but candidate
n = 3 fails; `select` then returns the fitted 5-state fallback model, whose
state count is not even in the candidate range — not the model of the
BIC-minimizing candidate. -/
theorem bic_minimizer_counterexample :
    (∃ q, SelectorBIC.get_model_score tC5 mlogW sC1 sC1.Xlengths 2 = .ok q)
    ∧ SelectorBIC.select tC5 mlogW sC1 = some ⟨5, 1, 1⟩
    ∧ 5 ∉ candidates sC1 := by
  exact ⟨⟨_, rfl⟩, rfl, by decide⟩

/-- Witness for amended C5: on the all-success trainer `tW` the BIC
selector returns the fitted model of a BIC-minimizing candidate. -/
theorem bic_all_success_returns_minimizer_witness :
    ∃ n ∈ candidates sW3,
      SelectorBIC.select tW mlogW sW3
        = base_model tW (combinedData sW3) sW3.random_state n
      ∧ (∃ m, SelectorBIC.select tW mlogW sW3 = some m)
      ∧ ∀ k ∈ candidates sW3, bicVal tW mlogW sW3 n ≤ bicVal tW mlogW sW3 k :=
  bic_all_success_returns_minimizer tW mlogW sW3 rfl (by decide)
    (fun _ _ => ⟨_, rfl⟩)

/-- The score component `avg_score` would return for candidate `n`
(`none` both for `-inf` and for the raising case, which callers of this
abbreviation exclude). -/
def cvScoreOf (t : Trainer) (s : ModelSelector) (n : Nat) : Option ℚ :=
  match SelectorCV.avg_score t s n with
  | .ok p => p.1
  | .error _ => none

/-- The model component `avg_score` would return for candidate `n`. -/
def cvModelOf (t : Trainer) (s : ModelSelector) (n : Nat) : Option Model :=
  match SelectorCV.avg_score t s n with
  | .ok p => p.2
  | .error _ => none

theorem cvGt_self (a : Option ℚ) : cvGt a a = false := by
  cases a <;> simp [cvGt]

theorem cvGt_asymm {a b : Option ℚ} (h : cvGt a b = true) : cvGt b a = false := by
  cases a <;> cases b <;> simp_all [cvGt]
  linarith

theorem cvGt_trans {a b c : Option ℚ} (h1 : cvGt a b = true)
    (h2 : cvGt b c = true) : cvGt a c = true := by
  cases a <;> cases b <;> cases c <;> simp_all [cvGt]
  linarith

theorem cvGt_le_of {a b c : Option ℚ} (h1 : cvGt a c = false)
    (h2 : cvGt b c = true) : cvGt a b = false := by
  cases a <;> cases b <;> cases c <;> simp_all [cvGt]
  linarith

/-- Invariant of CV's search loop when every remaining candidate's
`avg_score` returns without raising: either no candidate beats the
accumulator and the initial `model` is returned, or the loop returns the
model of a remaining candidate whose average score is maximal among the
remaining candidates (and beats the accumulator). -/
theorem cv_loop_max (t : Trainer) (s : ModelSelector) :
    ∀ (l : List Nat) (lowest : Option ℚ) (model : Option Model),
      (∀ n ∈ l, ∃ p, SelectorCV.avg_score t s n = .ok p) →
      (SelectorCV.selectLoop t s l lowest model = .ok model
          ∧ ∀ n ∈ l, cvGt (cvScoreOf t s n) lowest = false)
        ∨ (∃ n ∈ l,
            SelectorCV.selectLoop t s l lowest model = .ok (cvModelOf t s n)
            ∧ cvGt (cvScoreOf t s n) lowest = true
            ∧ ∀ k ∈ l, cvGt (cvScoreOf t s k) (cvScoreOf t s n) = false) := by
  intro l
  induction l with
  | nil =>
    intro lowest model _
    left
    exact ⟨rfl, by simp⟩
  | cons n rest ih =>
    intro lowest model hall
    obtain ⟨p, hp⟩ := hall n (List.mem_cons_self _ _)
    obtain ⟨sc, hm⟩ := p
    have hsv : cvScoreOf t s n = sc := by
      unfold cvScoreOf
      rw [hp]
    have hmv : cvModelOf t s n = hm := by
      unfold cvModelOf
      rw [hp]
    have hrest : ∀ k ∈ rest, ∃ p, SelectorCV.avg_score t s k = .ok p :=
      fun k hk => hall k (List.mem_cons_of_mem _ hk)
    have hstep : SelectorCV.selectLoop t s (n :: rest) lowest model
        = if cvGt sc lowest then SelectorCV.selectLoop t s rest sc hm
          else SelectorCV.selectLoop t s rest lowest model := by
      simp only [SelectorCV.selectLoop, hp]
    cases hlt : cvGt sc lowest with
    | true =>
      rw [hstep, if_pos hlt]
      rcases ih sc hm hrest with ⟨hloop, hmin⟩ | ⟨n', hmem', hloop, hlt', hmin'⟩
      · right
        refine ⟨n, List.mem_cons_self _ _, ?_, ?_, ?_⟩
        · rw [hmv]
          exact hloop
        · rw [hsv]
          exact hlt
        · intro k hk
          rcases List.mem_cons.mp hk with rfl | hk'
          · rw [hsv]
            exact cvGt_self sc
          · rw [hsv]
            exact hmin k hk'
      · right
        refine ⟨n', List.mem_cons_of_mem _ hmem', hloop, ?_, ?_⟩
        · exact cvGt_trans hlt' hlt
        · intro k hk
          rcases List.mem_cons.mp hk with rfl | hk'
          · rw [hsv]
            exact cvGt_asymm hlt'
          · exact hmin' k hk'
    | false =>
      rw [hstep, if_neg (by simp [hlt])]
      rcases ih lowest model hrest with ⟨hloop, hmin⟩ | ⟨n', hmem', hloop, hlt', hmin'⟩
      · left
        refine ⟨hloop, ?_⟩
        intro k hk
        rcases List.mem_cons.mp hk with rfl | hk'
        · rw [hsv]
          exact hlt
        · exact hmin k hk'
      · right
        refine ⟨n', List.mem_cons_of_mem _ hmem', hloop, hlt', ?_⟩
        intro k hk
        rcases List.mem_cons.mp hk with rfl | hk'
        · rw [hsv]
          exact cvGt_le_of hlt hlt'
        · exact hmin' k hk'

/-- C10 amended: whenever a winning candidate exists (some candidate's
average beats `-inf`; the word has at least 2 utterance-sequences),
`SelectorCV.select` returns for it the model object left by the *last* fold
of that candidate's fold loop — the last fold's fitted model when its fit
succeeded, otherwise the fresh unfitted object constructed in that failing
last fold (so not necessarily the last *successful* fold's model, see the
counterexample) — and never a model refit on the word's full data. -/
theorem cv_returns_last_fold_model (t : Trainer) (s : ModelSelector)
    (h2 : 2 ≤ s.sequences.length)
    (hbeat : ∃ n ∈ candidates s, cvScoreOf t s n ≠ none) :
    (∀ n : Nat, SelectorCV.avg_score t s n
        = .ok (cvScoreOf t s n, some (lastFoldModel t s n)))
    ∧ ∃ n ∈ candidates s,
        SelectorCV.select t s = .ok (some (lastFoldModel t s n))
        ∧ ∀ k ∈ candidates s, cvGt (cvScoreOf t s k) (cvScoreOf t s n) = false := by
  have havg : ∀ n : Nat, SelectorCV.avg_score t s n
      = .ok (cvScoreOf t s n, some (lastFoldModel t s n)) := by
    intro n
    have h := cv_avg_score_eq t s n h2
    have hsv : cvScoreOf t s n = cvAvg (cvScores t s n) := by
      unfold cvScoreOf
      rw [h]
    rw [hsv]
    exact h
  refine ⟨havg, ?_⟩
  rcases cv_loop_max t s (candidates s) none none (fun n _ => ⟨_, havg n⟩)
    with ⟨_, hfalse⟩ | ⟨n, hmem, hloop, _, hmin⟩
  · obtain ⟨n0, hm0, hne0⟩ := hbeat
    have h0 := hfalse n0 hm0
    cases hx : cvScoreOf t s n0 with
    | none => exact absurd hx hne0
    | some q =>
      rw [hx] at h0
      simp [cvGt] at h0
  · have hmv : cvModelOf t s n = some (lastFoldModel t s n) := by
      unfold cvModelOf
      rw [havg n]
    refine ⟨n, hmem, ?_, hmin⟩
    unfold SelectorCV.select
    rw [hloop, hmv]

/-- A word with 3 utterance-sequences of 1, 2 and 3 frames. -/
def seqs3 : List Utterance := [[[0]], [[0], [1]], [[0], [1], [2]]]

/-- A trainer whose fit fails exactly on training data with lengths
`[1, 2]` (the third fold's training set below) and whose fitted models
record the training lengths' sum in their tag, so that models fitted on
different folds are distinguishable and differ from the unfitted
constructor output (tag 0, features 0). -/
def tC10 : Trainer where
  new := fun n _ _ => ⟨n, 0, 0⟩
  fit := fun m d =>
    if d.lengths = [1, 2] then none else some ⟨m.n_components, 1, d.lengths.sum⟩
  score := fun _ _ => some 0

/-- The 3-sequence word with the single candidate n = 4. -/
def sC10 : ModelSelector :=
  { sW3 with
    sequences := seqs3
    Xlengths := combine_sequences [0, 1, 2] seqs3
    min_n_components := 4
    max_n_components := 4 }

/-- Counterexample to C10: for the winning candidate the first two folds
fit successfully but the *last* fold's fit fails; `select` then returns the
unfitted object `⟨4, 0, 0⟩` constructed in that last fold — not the last
successful fold's fitted model `⟨4, 1, 4⟩` (fitted on train indices
`[0, 2]`). -/
theorem cv_last_successful_fold_counterexample :
    SelectorCV.select tC10 sC10 = .ok (some ⟨4, 0, 0⟩)
    ∧ tC10.fit (tC10.new 4 sC10.random_state sC10.verbose)
        (combine_sequences [0, 2] seqs3) = some ⟨4, 1, 4⟩
    ∧ (⟨4, 0, 0⟩ : Model) ≠ ⟨4, 1, 4⟩ := by
  exact ⟨rfl, by decide, by decide⟩

/-- The 3-sequence word with the default range 2..4. -/
def sCV3 : ModelSelector :=
  { sW3 with sequences := seqs3, Xlengths := combine_sequences [0, 1, 2] seqs3 }

/-- Witness for amended C10: on the all-success trainer `tW` the CV
selector returns the last fold's model of a score-maximal candidate. -/
theorem cv_returns_last_fold_model_witness :
    ∃ n ∈ candidates sCV3,
      SelectorCV.select tW sCV3 = .ok (some (lastFoldModel tW sCV3 n))
      ∧ ∀ k ∈ candidates sCV3,
          cvGt (cvScoreOf tW sCV3 k) (cvScoreOf tW sCV3 n) = false :=
  (cv_returns_last_fold_model tW sCV3 (by decide) ⟨2, by decide, by decide⟩).2

end Recognizer
